import Mathlib

/-!
Verification development for the slidegen repository.

The definitions below are a shallow embedding of `generate_slides.py`:
strings are `List Char`, the filesystem side effects of the pipeline driver
are explicit state passing over `DriverState`, and the language-model
subprocess is an oracle indexed by call site (topic index, part index,
attempt number).  Fallible calls return `Option`.
-/

namespace Slidegen

/-- Whitespace test matching Python `str.strip` / regex `\s` on the ASCII
range (space, tab, newline, carriage return, vertical tab, form feed). -/
def isWS (c : Char) : Bool :=
  c = ' ' || c = '\t' || c = '\n' || c = '\r' || c = Char.ofNat 11 || c = Char.ofNat 12

/-- Decimal digit test matching regex `\d` on ASCII. -/
def isDig (c : Char) : Bool :=
  '0' ≤ c && c ≤ '9'

/-- Python `str.strip()`: drop leading and trailing whitespace. -/
def pystrip (s : List Char) : List Char :=
  ((s.dropWhile isWS).reverse.dropWhile isWS).reverse

/-- Index of the leftmost occurrence of `sep` in `s` (`none` when `sep`
does not occur).  This is the search underlying both Python `str.split`
and `re.search` of a literal pattern. -/
def findOcc (sep : List Char) : List Char → Option Nat
  | [] => none
  | c :: rest =>
    if sep.isPrefixOf (c :: rest) then some 0
    else (findOcc sep rest).map (· + 1)

/-- Fueled worker for `splitOnSep`; fuel `s.length` always suffices because
each step removes at least one character before the recursive call. -/
def splitOnSepAux (sep : List Char) : Nat → List Char → List (List Char)
  | 0, s => [s]
  | fuel + 1, s =>
    match findOcc sep s with
    | none => [s]
    | some i => s.take i :: splitOnSepAux sep fuel (s.drop (i + sep.length))

/-- Python `str.split(sep)` for a non-empty separator: split on the
leftmost non-overlapping occurrences of `sep`.  (Python raises on an empty
separator; the guard keeps the function total.) -/
def splitOnSep (sep s : List Char) : List (List Char) :=
  if sep.isEmpty then [s] else splitOnSepAux sep s.length s

/-- Fueled worker for `countOcc`, mirroring `splitOnSepAux`. -/
def countOccAux (sep : List Char) : Nat → List Char → Nat
  | 0, _ => 0
  | fuel + 1, s =>
    match findOcc sep s with
    | none => 0
    | some i => countOccAux sep fuel (s.drop (i + sep.length)) + 1

/-- Number of leftmost non-overlapping occurrences of `sep` in `s` (the
occurrence count relevant to `str.split`). -/
def countOcc (sep s : List Char) : Nat :=
  if sep.isEmpty then 0 else countOccAux sep s.length s

/-- Python `str.replace(old, new)` for a non-empty `old`. -/
def pyReplace (s old new : List Char) : List Char :=
  if old.isEmpty then s else List.intercalate new (splitOnSep old s)

/-- Numeric value of a big-endian list of decimal digit characters
(`int(...)` on the digits captured by `slide_(\d+)`). -/
def natOfDigits (ds : List Char) : Nat :=
  ds.foldl (fun a c => a * 10 + (c.toNat - 48)) 0

/-- Fueled worker producing the big-endian decimal digits of `n` (empty
for `n = 0`); fuel `n` suffices since `n / 10 < n` for `n > 0`. -/
def pyDigitsAux : Nat → Nat → List Char
  | 0, _ => []
  | fuel + 1, n =>
    if n = 0 then [] else pyDigitsAux fuel (n / 10) ++ [Char.ofNat (48 + n % 10)]

/-- Decimal representation of `n`, as Python `str(n)` / `f"{n}"`. -/
def pyDigits (n : Nat) : List Char :=
  if n = 0 then ['0'] else pyDigitsAux n n

/-- Python `f"{n:03d}"`: decimal digits left-padded with `'0'` to width 3. -/
def pad3 (n : Nat) : List Char :=
  List.replicate (3 - (pyDigits n).length) '0' ++ pyDigits n

/-! ### Outline parser (`parse_config`)

Title patterns, in order:
`"Course Title:\s*(.*?)(?:\n|$)"`, `"Title:\s*(.*?)(?:\n|$)"`,
`"^#\s*(.*?)(?:\n|$)"`, `"^=+\s*(.*?)\s*=+\s*$"`, searched with
`re.MULTILINE`.  For the first three the tail `\s*(.*?)(?:\n|$)` always
matches, with no backtracking into `\s*`: the lazy group stops at the
first position followed by a newline or the end, i.e. the group is the
run of non-newline characters after the greedy whitespace run. -/

/-- The group captured by `\s*(.*?)(?:\n|$)` starting at `t`. -/
def labelTail (t : List Char) : List Char :=
  (t.dropWhile isWS).takeWhile (fun c => c ≠ '\n')

/-- `re.search` for `lit` followed by `\s*(.*?)(?:\n|$)` (patterns 1-2):
leftmost occurrence of the literal, then the captured group. -/
def searchLabel (lit content : List Char) : Option (List Char) :=
  (findOcc lit content).map (fun i => labelTail (content.drop (i + lit.length)))

/-- Scanner for `^#\s*(.*?)(?:\n|$)` with `re.MULTILINE`: leftmost
line-start position holding `'#'`.  The Bool argument tracks whether the
current suffix begins a line. -/
def searchHashAux : List Char → Bool → Option (List Char)
  | [], _ => none
  | c :: rest, atStart =>
    if atStart && c = '#' then some (labelTail rest)
    else searchHashAux rest (c = '\n')

/-- `re.search(r"^#\s*(.*?)(?:\n|$)", content, re.MULTILINE)`. -/
def searchHash (content : List Char) : Option (List Char) :=
  searchHashAux content true

/-- `[hi, hi - 1, ..., lo]`: exploration order of a greedy quantifier. -/
def countdown (hi lo : Nat) : List Nat :=
  (List.range' lo (hi + 1 - lo)).reverse

/-- `[lo, ..., hi]`: exploration order of a lazy quantifier. -/
def countup (lo hi : Nat) : List Nat :=
  List.range' lo (hi + 1 - lo)

/-- Backtracking match of `=+\s*(.*?)\s*=+\s*$` (after the `^` anchor) at
the line-start suffix `s`, exploring quantifier lengths exactly in the
regex engine's order: greedy runs longest-first, the lazy group
shortest-first; `$` under `re.MULTILINE` holds at the end of the input or
before a newline. -/
def matchUnderlineAt (s : List Char) : Option (List Char) :=
  let n1 := (s.takeWhile (fun c => c = '=')).length
  if n1 = 0 then none else
  (countdown n1 1).findSome? fun k1 =>
    let t1 := s.drop k1
    (countdown (t1.takeWhile isWS).length 0).findSome? fun w1 =>
      let t2 := t1.drop w1
      (countup 0 (t2.takeWhile (fun c => c ≠ '\n')).length).findSome? fun g =>
        let grp := t2.take g
        let t3 := t2.drop g
        (countdown (t3.takeWhile isWS).length 0).findSome? fun w2 =>
          let t4 := t3.drop w2
          let n2 := (t4.takeWhile (fun c => c = '=')).length
          if n2 = 0 then none else
          (countdown n2 1).findSome? fun k2 =>
            let t5 := t4.drop k2
            (countdown (t5.takeWhile isWS).length 0).findSome? fun w3 =>
              let t6 := t5.drop w3
              if t6.isEmpty || t6.head? = some '\n' then some grp else none

/-- Scanner for `^=+\s*(.*?)\s*=+\s*$` with `re.MULTILINE`: try
`matchUnderlineAt` at every line-start suffix, leftmost first. -/
def searchUnderlineAux : List Char → Bool → Option (List Char)
  | [], _ => none
  | c :: rest, atStart =>
    if atStart then
      match matchUnderlineAt (c :: rest) with
      | some g => some g
      | none => searchUnderlineAux rest (c = '\n')
    else searchUnderlineAux rest (c = '\n')

/-- `re.search(r"^=+\s*(.*?)\s*=+\s*$", content, re.MULTILINE)`. -/
def searchUnderline (content : List Char) : Option (List Char) :=
  searchUnderlineAux content true

/-- The `title_patterns` loop: first matching pattern wins, yielding its
`group(1)`. -/
def titleFromPatterns (content : List Char) : Option (List Char) :=
  searchLabel ("Course Title:".data) content
    <|> searchLabel ("Title:".data) content
    <|> searchHash content
    <|> searchUnderline content

/-- The code's fallback expression
`next((line.strip() for line in content.split('\n') if line.strip()), "Untitled Course")`. -/
def fallbackTitle (content : List Char) : List Char :=
  match (splitOnSep ['\n'] content).findSome?
      (fun l => let s := pystrip l; if s.isEmpty then none else some s) with
  | some t => t
  | none => "Untitled Course".data

/-- Modelled from the spec: "falls back to the first non-blank line, then a
fixed placeholder" — the stripped first line containing a non-whitespace
character, else `"Untitled Course"`.  Stated separately from the code's
`fallbackTitle` so the two can be compared. -/
def specFallbackTitle (content : List Char) : List Char :=
  match (splitOnSep ['\n'] content).find? (fun l => !l.all isWS) with
  | some l => pystrip l
  | none => "Untitled Course".data

/-- Lower-case image of a string, for the `re.I` comparisons. -/
def toLowerList (l : List Char) : List Char :=
  l.map Char.toLower

/-- `re.match(r'^(Part|Section|Module|Chapter)\s+\d+:', line, re.I)`:
one of the words (case-insensitively), then `\s+`, `\d+`, `':'`. -/
def isSectionHeader (line : List Char) : Bool :=
  ["part", "section", "module", "chapter"].any fun w =>
    let low := toLowerList line
    w.data.isPrefixOf low &&
      (let rest := low.drop w.data.length
       let ws := rest.takeWhile isWS
       !ws.isEmpty &&
         (let r2 := rest.drop ws.length
          let ds := r2.takeWhile isDig
          !ds.isEmpty && (r2.drop ds.length).head? = some ':'))

/-- `re.match(r'^(Overview|Summary|Notes?|Objectives?):', line, re.I)`. -/
def isSkipLabel (line : List Char) : Bool :=
  ["overview:", "summary:", "notes:", "note:", "objectives:", "objective:"].any
    fun w => w.data.isPrefixOf (toLowerList line)

/-- `re.match(r'^\d+\.\s*(.*)', line)`: a maximal non-empty digit run, a
dot, then the group after the whitespace run.  (Backtracking a greedy
`\d+` cannot help: a shorter run ends before a digit, which is not `'.'`.) -/
def matchNumbered (line : List Char) : Option (List Char) :=
  let ds := line.takeWhile isDig
  if ds.isEmpty then none
  else if (line.drop ds.length).head? = some '.' then
    some (((line.drop (ds.length + 1)).dropWhile isWS).takeWhile (fun c => c ≠ '\n'))
  else none

/-- The characters of the source's bullet character class `[-*â€¢]` (the
file stores the bullet glyph as the three bytes `â`, `€`, `¢`). -/
def bulletChars : List Char :=
  ['-', '*', 'â', '€', '¢']

/-- `re.match(r'^[-*â€¢]\s*(.*)', line)`. -/
def matchBullet (line : List Char) : Option (List Char) :=
  match line with
  | [] => none
  | c :: rest =>
    if bulletChars.contains c then
      some ((rest.dropWhile isWS).takeWhile (fun x => x ≠ '\n'))
    else none

/-- `re.match(r'^\([A-Z]\)\s*(.*)', line)`. -/
def matchLettered (line : List Char) : Option (List Char) :=
  match line with
  | '(' :: c :: ')' :: rest =>
    if 'A' ≤ c && c ≤ 'Z' then
      some ((rest.dropWhile isWS).takeWhile (fun x => x ≠ '\n'))
    else none
  | _ => none

/-- `re.match(r'(?:Topic|Session):\s*(.*)', line)` (case-sensitive). -/
def matchLabeled (line : List Char) : Option (List Char) :=
  if ("Topic:".data).isPrefixOf line then
    some (((line.drop 6).dropWhile isWS).takeWhile (fun c => c ≠ '\n'))
  else if ("Session:".data).isPrefixOf line then
    some (((line.drop 8).dropWhile isWS).takeWhile (fun c => c ≠ '\n'))
  else none

/-- The `patterns` loop over the four content patterns, in source order. -/
def matchTopicPatterns (line : List Char) : Option (List Char) :=
  matchNumbered line <|> matchBullet line <|> matchLettered line <|> matchLabeled line

/-- One iteration of the topic loop body: the topic contributed by a raw
line, if any.  Mirrors the source including Python truthiness: an empty
captured group falls through to the whole-line fallback. -/
def lineTopic (rawLine : List Char) : Option (List Char) :=
  let line := pystrip rawLine
  if line.isEmpty then none
  else if isSectionHeader line then none
  else
    match (matchTopicPatterns line).map pystrip with
    | some c =>
      if c.isEmpty then (if isSkipLabel line then none else some line) else some c
    | none => if isSkipLabel line then none else some line

/-- The header-skip scan: index one past the first blank line, with the
initial value 0 kept when no line is blank. -/
def contentStartAux : List (List Char) → Nat → Option Nat
  | [], _ => none
  | l :: ls, i => if (pystrip l).isEmpty then some (i + 1) else contentStartAux ls (i + 1)

/-- `content_start` as computed by `parse_config`. -/
def contentStart (lines : List (List Char)) : Nat :=
  (contentStartAux lines 0).getD 0

/-- Body of `parse_config` applied to the stripped file contents. -/
def parseCore (content : List Char) : List Char × List (List Char) :=
  let course_title :=
    match (titleFromPatterns content).map pystrip with
    | some t => if t.isEmpty then fallbackTitle content else t
    | none => fallbackTitle content
  let lines := splitOnSep ['\n'] content
  (course_title, (lines.drop (contentStart lines)).filterMap lineTopic)

/-- `parse_config`: read the file text, strip it, extract title and topics. -/
def parse_config (fileText : List Char) : List Char × List (List Char) :=
  parseCore (pystrip fileText)


/-- The HTML slide template string literal from `insert_into_template`. -/
def templateHTML : List Char :=
  ("<!DOCTYPE html>\n<html lang=\"en\">\n<head>\n\t<meta charset=\"UTF-8\">\n\t<meta name=\"viewpor" ++
  "t\" content=\"width=device-width, initial-scale=1.0\">\n\t<title>\x7b\x7bSLIDE_TITLE\x7d\x7d - " ++
  "\x7b\x7bCOURSE_TITLE\x7d\x7d</title>\n\t<style>\n\t\t:root \x7b\n\t\t\t--main-font: system-ui, " ++
  "-apple-system, BlinkMacSystemFont, 'Segoe UI', Roboto, Oxygen, Ubuntu, Cantarell, sans-serif;\n" ++
  "\t\t\x7d\n\t\tbody \x7b\n\t\t\tfont-family: var(--main-font);\n\t\t\tmargin: 0;\n\t\t\tpadding:" ++
  " 0;\n\t\t\tmin-height: 100vh;\n\t\t\tdisplay: flex;\n\t\t\tflex-direction: column;\n\t\t\x7d\n\t" ++
  "\tmain \x7b\n\t\t\tflex: 1;\n\t\t\tpadding: 2rem;\n\t\t\tmax-width: 1200px;\n\t\t\tmargin: 0 au" ++
  "to;\n\t\t\twidth: 100%;\n\t\t\tbox-sizing: border-box;\n\t\t\x7d\n\t\th1, h2 \x7b\n\t\t\tcolor:" ++
  " #1a1a1a;\n\t\t\tline-height: 1.2;\n\t\t\x7d\n\t\th1 \x7b\n\t\t\tfont-size: 2.5rem;\n\t\t\tmarg" ++
  "in-bottom: 1.5rem;\n\t\t\x7d\n\t\th2 \x7b\n\t\t\tfont-size: 2rem;\n\t\t\tmargin: 1rem 0;\n\t\t\x7d" ++
  "\n\t\tp, li \x7b\n\t\t\tfont-size: 1.5rem;\n\t\t\tline-height: 1.5;\n\t\t\tcolor: #333;\n\t\t\x7d" ++
  "\n\t\tul \x7b\n\t\t\tpadding-left: 1rem;\n\t\t\tmargin: 1rem 0;\n\t\t\tmax-width: 1000px;\n\t\t" ++
  "\x7d\n\t\tli \x7b\n\t\t\tmargin: 0.75rem 0;\n\t\t\tpadding-left: 0.25rem;\n\t\t\x7d\n\t\t/* Pre" ++
  "vent deep nesting */\n\t\tli li li \x7b\n\t\t\tdisplay: none;\n\t\t\x7d\n\t\t.header \x7b\n\t\t" ++
  "\tbackground: #333;\n\t\t\tcolor: white;\n\t\t\tpadding: 1rem 2rem;\n\t\t\tfont-size: 1.25rem;\n" ++
  "\t\t\x7d\n\t\t.footer \x7b\n\t\t\tbackground: #f5f5f5;\n\t\t\tpadding: 1rem 2rem;\n\t\t\tfont-s" ++
  "ize: 1rem;\n\t\t\tborder-top: 1px solid #ddd;\n\t\t\x7d\n\t\t.slide-number \x7b\n\t\t\tposition" ++
  ": absolute;\n\t\t\ttop: 1rem;\n\t\t\tright: 1rem;\n\t\t\tfont-size: 1.25rem;\n\t\t\tcolor: #666" ++
  ";\n\t\t\x7d\n\t</style>\n</head>\n<body>\n\t<div class=\"header\">\x7b\x7bCOURSE_TITLE\x7d\x7d<" ++
  "/div>\n\t<main>\n\t\t\x7b\x7bSLIDE_CONTENT\x7d\x7d\n\t</main>\n\t<div class=\"footer\">\x7b\x7b" ++
  "FOOTER_NOTES\x7d\x7d</div>\n</body>\n</html>").data

/-- The generation-side ambiguity sentinel string. -/
def TOPIC_SENT : List Char := "TOPIC_CLARIFICATION_NEEDED".data

/-- The summarization-side ambiguity sentinel string. -/
def CONTENT_SENT : List Char := "CONTENT_CLARIFICATION_NEEDED".data

/-- The literal split marker `"<!--SPLIT_SLIDE_HERE-->"`. -/
def SPLIT_MARKER : List Char := "<!--SPLIT_SLIDE_HERE-->".data

/-- `insert_into_template`: fill the template by literal placeholder
substitution (Python `str.replace`, all occurrences). -/
def insert_into_template (course_title slide_title slide_content footer_notes : List Char) :
    List Char :=
  let f1 := pyReplace templateHTML ("\x7b\x7bCOURSE_TITLE\x7d\x7d".data) course_title
  let f2 := pyReplace f1 ("\x7b\x7bSLIDE_TITLE\x7d\x7d".data) slide_title
  let f3 := pyReplace f2 ("\x7b\x7bSLIDE_CONTENT\x7d\x7d".data) slide_content
  pyReplace f3 ("\x7b\x7bFOOTER_NOTES\x7d\x7d".data) footer_notes

/-! ### Model gateway and retry loop

`run_prompt_through_anthropic` shells out to the processor script and reads
back the output file; here the subprocess is an oracle `resp` mapping the
attempt number to the raw text it wrote (`none` models
`CalledProcessError`).  The function returns the stripped response, or
`none` after the bounded retries are exhausted (every call site in `main`
uses the default `max_retries = 1`). -/

/-- The `for attempt in range(max_retries)` loop; the second `Nat` is the
number of loop iterations still to run. -/
def run_prompt_aux (resp : Nat → Option (List Char)) (max_retries : Nat) :
    Nat → Nat → Option (List Char)
  | _, 0 => none
  | attempt, rem + 1 =>
    match resp attempt with
    | none =>
      if attempt = max_retries - 1 then none
      else run_prompt_aux resp max_retries (attempt + 1) rem
    | some raw =>
      let r := pystrip raw
      if r = TOPIC_SENT ∨ r = CONTENT_SENT then
        if attempt = max_retries - 1 then none
        else run_prompt_aux resp max_retries (attempt + 1) rem
      else some r

/-- `run_prompt_through_anthropic` over an oracle of per-attempt raw
responses. -/
def run_prompt_through_anthropic (resp : Nat → Option (List Char)) (max_retries : Nat) :
    Option (List Char) :=
  run_prompt_aux resp max_retries 0 max_retries

/-- The language-model subprocess, abstracted per call site: `genResp i a`
is the raw text written for topic `i`'s generation call on attempt `a`;
`sumResp i j a` likewise for the summary call of part `j` of topic `i`. -/
structure Oracle where
  genResp : Nat → Nat → Option (List Char)
  sumResp : Nat → Nat → Nat → Option (List Char)

/-- The driver's filesystem/memory state: slide files written during this
run (name and contents, in order), the in-memory `summary_stack`, and the
contents of `summaries.json` (`none` when the file is absent). -/
structure DriverState where
  written : List (List Char × List Char)
  stack : List (List Char)
  disk : Option (List (List Char))
deriving DecidableEq

/-- The slide file name `f"slide_\x7bslide_number\x7d.html"` where
`slide_number` is `f"\x7bi:03d\x7d"`, suffixed `_\x7bj\x7d` for part `j` of a
split response. -/
def slideFileName (i : Nat) (part : Option Nat) : List Char :=
  "slide_".data ++ pad3 i ++
    (match part with | none => [] | some j => '_' :: pyDigits j) ++ ".html".data

/-- Body of the `for j, part in enumerate(slide_parts, start=1)` loop:
write the slide file, then attempt the summary; a successful, non-empty
(Python truthiness), non-sentinel summary is appended to the stack and the
full stack is immediately persisted. -/
def processPart (o : Oracle) (title topic : List Char) (i j : Nat) (multi : Bool)
    (st : DriverState) (part : List Char) : DriverState :=
  let slide_number := pad3 i ++ (if multi then '_' :: pyDigits j else [])
  let name := "slide_".data ++ slide_number ++ ".html".data
  let content := insert_into_template title topic (pystrip part) []
  let st1 : DriverState := ⟨st.written ++ [(name, content)], st.stack, st.disk⟩
  match run_prompt_through_anthropic (o.sumResp i j) 1 with
  | none => st1
  | some summary =>
    if summary.isEmpty then st1
    else if summary = CONTENT_SENT then st1
    else
      let stack' := st1.stack ++ [summary]
      ⟨st1.written, stack', some stack'⟩

/-- The parts loop itself, `j` starting at 1. -/
def partsLoop (o : Oracle) (title topic : List Char) (i : Nat) (multi : Bool) :
    Nat → List (List Char) → DriverState → DriverState
  | _, [], st => st
  | j, p :: ps, st =>
    partsLoop o title topic i multi (j + 1) ps (processPart o title topic i j multi st p)

/-- One iteration of the topic loop: generation call (default retry budget
1), Python-truthiness failure check, sentinel check, split on the marker,
then the parts loop. -/
def processTopic (o : Oracle) (title : List Char) (i : Nat) (topic : List Char)
    (st : DriverState) : DriverState :=
  match run_prompt_through_anthropic (o.genResp i) 1 with
  | none => st
  | some slide_content =>
    if slide_content.isEmpty then st
    else if slide_content = TOPIC_SENT then st
    else
      let slide_parts := splitOnSep SPLIT_MARKER slide_content
      partsLoop o title topic i (decide (1 < slide_parts.length)) 1 slide_parts st

/-- The topic loop of `main`: `for i, topic in enumerate(topics[next_slide-1:],
start=next_slide)`, with the test-mode `if args.test_mode and i > 5: break`. -/
def runTopics (o : Oracle) (title : List Char) (tm : Bool) :
    Nat → List (List Char) → DriverState → DriverState
  | _, [], st => st
  | i, t :: ts, st =>
    if tm ∧ 5 < i then st
    else runTopics o title tm (i + 1) ts (processTopic o title i t st)

/-- The absolute topic indices for which the loop body runs, mirroring the
control flow of `runTopics`. -/
def processedIndices (tm : Bool) : Nat → List (List Char) → List Nat
  | _, [] => []
  | i, _ :: ts =>
    if tm ∧ 5 < i then [] else i :: processedIndices tm (i + 1) ts

/-- `fnmatch` of a file name against the glob pattern `slide_*.html`.
(The source globs full paths; the directory listing is modelled as the
list of file names in `slides_dir`.) -/
def globMatch (name : List Char) : Bool :=
  ("slide_".data).isPrefixOf name && (".html".data).isSuffixOf name && 11 ≤ name.length

/-- Match of `slide_(\d+)\.html` anchored at the start of `s`: the literal,
a maximal non-empty digit run (greedy `\d+`; shorter runs end before a
digit, which is not `'.'`), then `.html`; yields `group(1)` as a number. -/
def matchSlideAt (s : List Char) : Option Nat :=
  if ("slide_".data).isPrefixOf s then
    let t := s.drop 6
    let ds := t.takeWhile isDig
    if ds.isEmpty then none
    else if (".html".data).isPrefixOf (t.drop ds.length) then some (natOfDigits ds)
    else none
  else none

/-- `re.search(r'slide_(\d+)\.html', f)` followed by `int(group(1))`:
leftmost position where `matchSlideAt` succeeds. -/
def searchSlideNum : List Char → Option Nat
  | [] => none
  | c :: rest =>
    match matchSlideAt (c :: rest) with
    | some n => some n
    | none => searchSlideNum rest

/-- `get_next_slide_number`: 1 when no file matches the glob, else the
maximum extracted number plus 1.  A matching file on which the regex
search fails makes the Python code raise `AttributeError` on
`.group(1)`; that crash is modelled as `none`.  (For the non-empty list
of numbers, `foldl Nat.max 0` equals Python's `max`.) -/
def get_next_slide_number (files : List (List Char)) : Option Nat :=
  let slide_files := files.filter globMatch
  if slide_files.isEmpty then some 1
  else (slide_files.mapM searchSlideNum).map (fun numbers => numbers.foldl Nat.max 0 + 1)

/-- The resumable part of `main`: compute the resume point from the slide
directory listing, load `summaries.json` into the summary stack (empty
when absent), and run the topic loop from there. -/
def mainRun (o : Oracle) (title : List Char) (topics : List (List Char)) (tm : Bool)
    (files : List (List Char)) (disk : Option (List (List Char))) : Option DriverState :=
  match get_next_slide_number files with
  | none => none
  | some next_slide =>
    let summary_stack := disk.getD []
    some (runTopics o title tm next_slide (topics.drop (next_slide - 1))
      ⟨[], summary_stack, disk⟩)

/-- The topic index encoded in a slide file name (digits after the
`slide_` literal). -/
def slideIdx (name : List Char) : Nat :=
  natOfDigits ((name.drop 6).takeWhile isDig)

/-- Modelled from the spec: "Resume point: the lowest topic index not yet
represented by an existing slide file" — the least `i ≥ 1` whose plain
slide file name is absent (searched up to one past the directory size,
where an absent index always exists). -/
def specResumePoint (files : List (List Char)) : Nat :=
  (((List.range' 1 (files.length + 1)).filter
    (fun i => !files.contains (slideFileName i none))).headD 1)

/-- The slide files `slide_001.html .. slide_k.html` for topics `1..k`. -/
def slidesUpTo (k : Nat) : List (List Char) :=
  (List.range' 1 k).map (fun i => slideFileName i none)

/-- Relation between two driver states reachable one from the other:
the stack only grows at the end, it grows by at most one entry per slide
file written, and the persisted file either is untouched or holds exactly
the current stack. -/
def StepOk (a b : DriverState) : Prop :=
  a.stack <+: b.stack ∧
  b.stack.length + a.written.length ≤ a.stack.length + b.written.length ∧
  ((b.disk = a.disk ∧ b.stack = a.stack) ∨ b.disk = some b.stack)

/-- The slide parts produced by the driver from one model response: the split
on the literal marker, each part trimmed as written into its slide file. -/
def slideParts (resp : List Char) : List (List Char) :=
  (splitOnSep SPLIT_MARKER resp).map pystrip

/-- An oracle whose generation calls always return a fixed slide body and
whose summary calls always return a fixed summary. -/
def oGen : Oracle :=
  ⟨fun _ _ => some ("<h2>X</h2>".data), fun _ _ _ => some ("S".data)⟩

/-- An oracle whose generation calls succeed but whose summary subprocess
always fails. -/
def oSumFail : Oracle :=
  ⟨fun _ _ => some ("<h2>A</h2>".data), fun _ _ _ => none⟩

/-- An oracle whose generation calls return the ambiguity sentinel (padded
with whitespace, stripped by the driver). -/
def oSent : Oracle :=
  ⟨fun _ _ => some ("  TOPIC_CLARIFICATION_NEEDED  ".data), fun _ _ _ => some ("S".data)⟩

/-- An oracle whose generation calls return a two-part response around the
split marker. -/
def oSplit2 : Oracle :=
  ⟨fun _ _ => some ("<h2>A</h2><!--SPLIT_SLIDE_HERE--><h2>B</h2>".data),
   fun _ _ _ => some ("S".data)⟩

/-- A directory listing with slides 1, 2 and 4: topic 3 was skipped by an
earlier run while topic 4 succeeded. -/
def filesGap : List (List Char) :=
  [slideFileName 1 none, slideFileName 2 none, slideFileName 4 none]

/-! ### Lemmas about the string utilities -/

theorem dropWhile_dropWhile (p : α → Bool) (l : List α) :
    (l.dropWhile p).dropWhile p = l.dropWhile p := by
  have h := List.head?_dropWhile_not p l
  cases hd : l.dropWhile p with
  | nil => rfl
  | cons c t =>
    rw [hd] at h
    simp only [List.head?] at h
    rw [List.dropWhile_cons_of_neg (by simp [h])]

theorem head_not_of_dropWhile_self {p : α → Bool} {l : List α} {c : α} {t : List α}
    (hself : l.dropWhile p = l) (hl : l = c :: t) : p c = false := by
  subst hl
  by_contra hpc
  have hpc' : p c = true := by revert hpc; cases p c <;> simp
  rw [List.dropWhile_cons_of_pos hpc'] at hself
  have := (List.dropWhile_sublist (l := t) p).length_le
  have := congrArg List.length hself
  simp at this
  omega

theorem dropWhile_self_of_isPrefix {p : α → Bool} {l l' : List α}
    (hself : l.dropWhile p = l) (hp : l' <+: l) : l'.dropWhile p = l' := by
  cases hl' : l' with
  | nil => rfl
  | cons c t =>
    obtain ⟨r, hr⟩ := hp
    rw [hl'] at hr
    have : p c = false := head_not_of_dropWhile_self hself (by rw [← hr]; rfl)
    rw [List.dropWhile_cons_of_neg (by simp [this])]

theorem pystrip_eq_nil_iff (s : List Char) : pystrip s = [] ↔ ∀ c ∈ s, isWS c := by
  simp only [pystrip, List.reverse_eq_nil_iff, List.dropWhile_eq_nil_iff, List.mem_reverse]
  constructor
  · intro h c hc
    by_cases hmem : c ∈ s.dropWhile isWS
    · exact h c hmem
    · have hc' : c ∈ s.takeWhile isWS ++ s.dropWhile isWS := by
        rw [List.takeWhile_append_dropWhile]; exact hc
      rcases List.mem_append.1 hc' with h1 | h1
      · exact List.mem_takeWhile_imp h1
      · exact absurd h1 hmem
  · intro h c hc
    exact h c ((List.dropWhile_sublist isWS).subset hc)

/-- The suffix decomposition of `dropWhile`. -/
theorem dropWhile_isSuffix (p : α → Bool) (l : List α) : l.dropWhile p <:+ l :=
  ⟨l.takeWhile p, List.takeWhile_append_dropWhile p l⟩

theorem pystrip_isPrefix_dropWhile (s : List Char) :
    pystrip s <+: s.dropWhile isWS := by
  have h1 : (s.dropWhile isWS).reverse.dropWhile isWS <:+ (s.dropWhile isWS).reverse :=
    dropWhile_isSuffix isWS _
  have h2 := List.reverse_prefix.2 h1
  rwa [List.reverse_reverse] at h2

theorem pystrip_idem (s : List Char) : pystrip (pystrip s) = pystrip s := by
  have hself : (s.dropWhile isWS).dropWhile isWS = s.dropWhile isWS :=
    dropWhile_dropWhile isWS s
  have hA : (pystrip s).dropWhile isWS = pystrip s :=
    dropWhile_self_of_isPrefix hself (pystrip_isPrefix_dropWhile s)
  have hB : (pystrip s).reverse.dropWhile isWS = (pystrip s).reverse := by
    have hrev : (pystrip s).reverse = (s.dropWhile isWS).reverse.dropWhile isWS := by
      simp [pystrip]
    rw [hrev, dropWhile_dropWhile]
  show (((pystrip s).dropWhile isWS).reverse.dropWhile isWS).reverse = pystrip s
  rw [hA, hB, List.reverse_reverse]

theorem pystrip_isInfix (s : List Char) : pystrip s <:+: s :=
  List.infix_iff_prefix_suffix.2
    ⟨s.dropWhile isWS, pystrip_isPrefix_dropWhile s, dropWhile_isSuffix isWS s⟩

/-! ### Lemmas about `findOcc` and `splitOnSep` -/

theorem findOcc_some_isPrefix {sep s : List Char} {i : Nat}
    (h : findOcc sep s = some i) : sep <+: s.drop i := by
  induction s generalizing i with
  | nil => simp [findOcc] at h
  | cons c rest ih =>
    rw [findOcc] at h
    split at h
    · next hpre =>
      cases h
      simpa using List.isPrefixOf_iff_prefix.1 hpre
    · next hpre =>
      cases hfo : findOcc sep rest with
      | none => rw [hfo] at h; simp at h
      | some i' =>
        rw [hfo] at h
        simp only [Option.map_some'] at h
        cases h
        simpa using ih hfo

theorem findOcc_some_min {sep s : List Char} {i : Nat}
    (h : findOcc sep s = some i) : ∀ j < i, ¬ sep <+: s.drop j := by
  induction s generalizing i with
  | nil => simp [findOcc] at h
  | cons c rest ih =>
    rw [findOcc] at h
    split at h
    · next hpre => cases h; intro j hj; exact absurd hj (Nat.not_lt_zero j)
    · next hpre =>
      cases hfo : findOcc sep rest with
      | none => rw [hfo] at h; simp at h
      | some i' =>
        rw [hfo] at h
        simp only [Option.map_some'] at h
        cases h
        intro j hj
        cases j with
        | zero =>
          simp only [List.drop_zero]
          intro hcon
          exact absurd (List.isPrefixOf_iff_prefix.2 hcon) (by simp [hpre])
        | succ j' => exact ih hfo j' (by omega)

theorem findOcc_none {sep s : List Char} (hsep : sep ≠ [])
    (h : findOcc sep s = none) : ∀ j, ¬ sep <+: s.drop j := by
  induction s with
  | nil =>
    intro j hcon
    simp only [List.drop_nil] at hcon
    exact hsep (List.prefix_nil.1 hcon)
  | cons c rest ih =>
    rw [findOcc] at h
    split at h
    · simp at h
    · next hpre =>
      have hrest : findOcc sep rest = none := by
        cases hfo : findOcc sep rest with
        | none => rfl
        | some i' => rw [hfo] at h; simp at h
      intro j
      cases j with
      | zero =>
        simp only [List.drop_zero]
        intro hcon
        exact absurd (List.isPrefixOf_iff_prefix.2 hcon) (by simp [hpre])
      | succ j' => exact ih hrest j'

theorem infix_iff_exists_drop {l s : List α} : l <:+: s ↔ ∃ i, l <+: s.drop i := by
  constructor
  · rintro ⟨u, v, rfl⟩
    refine ⟨u.length, ?_⟩
    rw [List.append_assoc, List.drop_left]
    exact List.prefix_append l v
  · rintro ⟨i, t, ht⟩
    exact ⟨s.take i, t, by rw [List.append_assoc, ht, List.take_append_drop]⟩

theorem not_infix_of_findOcc_none {sep s : List Char} (hsep : sep ≠ [])
    (h : findOcc sep s = none) : ¬ sep <:+: s := by
  intro hcon
  obtain ⟨i, hi⟩ := infix_iff_exists_drop.1 hcon
  exact findOcc_none hsep h i hi

theorem not_infix_take_of_findOcc_some {sep s : List Char} {i : Nat} (hsep : sep ≠ [])
    (h : findOcc sep s = some i) : ¬ sep <:+: s.take i := by
  intro hcon
  obtain ⟨j, hj⟩ := infix_iff_exists_drop.1 hcon
  by_cases hji : j < i
  · rw [List.drop_take] at hj
    have htp : (s.drop j).take (i - j) <+: s.drop j :=
      ⟨(s.drop j).drop (i - j), List.take_append_drop _ _⟩
    exact findOcc_some_min h j hji (hj.trans htp)
  · have hnil : (s.take i).drop j = [] :=
      List.drop_eq_nil_of_le (le_trans (List.length_take_le i s) (by omega))
    rw [hnil] at hj
    exact hsep (List.prefix_nil.1 hj)

theorem splitOnSepAux_length (sep : List Char) (hsep : sep ≠ []) :
    ∀ fuel s, s.length ≤ fuel →
      (splitOnSepAux sep fuel s).length = countOccAux sep fuel s + 1 := by
  intro fuel
  induction fuel with
  | zero => intro s _; rfl
  | succ fuel ih =>
    intro s hlen
    rw [splitOnSepAux, countOccAux]
    cases hfo : findOcc sep s with
    | none => rfl
    | some i =>
      have hL : 1 ≤ sep.length := by
        cases sep with
        | nil => exact absurd rfl hsep
        | cons a b => simp
      have hrec : (s.drop (i + sep.length)).length ≤ fuel := by
        rw [List.length_drop]; omega
      simp only [List.length_cons, ih _ hrec]

theorem splitOnSepAux_no_infix (sep : List Char) (hsep : sep ≠ []) :
    ∀ fuel s, s.length ≤ fuel →
      ∀ p ∈ splitOnSepAux sep fuel s, ¬ sep <:+: p := by
  intro fuel
  induction fuel with
  | zero =>
    intro s hlen p hp
    have hs : s = [] := List.length_eq_zero.1 (by omega)
    subst hs
    have hps : p = [] := List.mem_singleton.1 hp
    subst hps
    intro hcon
    rw [List.infix_nil] at hcon
    exact hsep hcon
  | succ fuel ih =>
    intro s hlen p hp
    rw [splitOnSepAux] at hp
    cases hfo : findOcc sep s with
    | none =>
      rw [hfo] at hp
      have hps : p = s := List.mem_singleton.1 hp
      subst hps
      exact not_infix_of_findOcc_none hsep hfo
    | some i =>
      rw [hfo] at hp
      have hL : 1 ≤ sep.length := by
        cases sep with
        | nil => exact absurd rfl hsep
        | cons a b => simp
      rcases List.mem_cons.1 hp with rfl | hp'
      · exact not_infix_take_of_findOcc_some hsep hfo
      · exact ih _ (by rw [List.length_drop]; omega) p hp' 

theorem splitOnSep_length {sep s : List Char} (hsep : sep ≠ []) :
    (splitOnSep sep s).length = countOcc sep s + 1 := by
  rw [splitOnSep, countOcc]
  rw [if_neg (by simp [hsep]), if_neg (by simp [hsep])]
  exact splitOnSepAux_length sep hsep s.length s le_rfl

theorem splitOnSep_no_infix {sep s : List Char} (hsep : sep ≠ []) :
    ∀ p ∈ splitOnSep sep s, ¬ sep <:+: p := by
  rw [splitOnSep, if_neg (by simp [hsep])]
  exact splitOnSepAux_no_infix sep hsep s.length s le_rfl


/-! ### Lemmas about decimal digits and slide file names -/

theorem char_digit_toNat {d : Nat} (hd : d < 10) : (Char.ofNat (48 + d)).toNat = 48 + d := by
  interval_cases d <;> rfl

theorem char_digit_isDig {d : Nat} (hd : d < 10) : isDig (Char.ofNat (48 + d)) = true := by
  interval_cases d <;> rfl

theorem pyDigitsAux_mem_isDig :
    ∀ fuel n, ∀ c ∈ pyDigitsAux fuel n, isDig c = true := by
  intro fuel
  induction fuel with
  | zero => intro n c hc; simp [pyDigitsAux] at hc
  | succ fuel ih =>
    intro n c hc
    rw [pyDigitsAux] at hc
    split at hc
    · simp at hc
    · rcases List.mem_append.1 hc with h1 | h1
      · exact ih _ c h1
      · rw [List.mem_singleton.1 h1]
        exact char_digit_isDig (Nat.mod_lt n (by omega))

theorem pyDigits_mem_isDig (n : Nat) : ∀ c ∈ pyDigits n, isDig c = true := by
  intro c hc
  rw [pyDigits] at hc
  split at hc
  · rw [List.mem_singleton.1 hc]; rfl
  · exact pyDigitsAux_mem_isDig n n c hc

theorem pad3_mem_isDig (n : Nat) : ∀ c ∈ pad3 n, isDig c = true := by
  intro c hc
  rcases List.mem_append.1 hc with h1 | h1
  · rw [List.eq_of_mem_replicate h1]; rfl
  · exact pyDigits_mem_isDig n c h1

theorem pyDigits_ne_nil (n : Nat) : pyDigits n ≠ [] := by
  rw [pyDigits]
  split
  · simp
  · next h =>
    cases n with
    | zero => exact absurd rfl h
    | succ m =>
      rw [pyDigitsAux, if_neg h]
      simp

theorem pad3_ne_nil (n : Nat) : pad3 n ≠ [] := by
  rw [pad3]
  intro h
  rcases List.append_eq_nil.1 h with ⟨_, h2⟩
  exact pyDigits_ne_nil n h2

theorem foldl_step_pyDigitsAux :
    ∀ fuel n a, n ≤ fuel →
      List.foldl (fun a c => a * 10 + (c.toNat - 48)) a (pyDigitsAux fuel n)
        = a * 10 ^ (pyDigitsAux fuel n).length + n := by
  intro fuel
  induction fuel with
  | zero =>
    intro n a hn
    have : n = 0 := by omega
    subst this
    simp [pyDigitsAux]
  | succ fuel ih =>
    intro n a hn
    rw [pyDigitsAux]
    split
    · next h => subst h; simp
    · next h =>
      have hdiv : n / 10 ≤ fuel := by
        have := Nat.div_lt_self (by omega : 0 < n) (by omega : 1 < 10)
        omega
      rw [List.foldl_append, ih (n / 10) a hdiv]
      simp only [List.foldl_cons, List.foldl_nil, List.length_append, List.length_cons,
        List.length_nil]
      rw [char_digit_toNat (Nat.mod_lt n (by omega))]
      have hmod : 48 + n % 10 - 48 = n % 10 := by omega
      rw [hmod, pow_succ]
      have := Nat.div_add_mod n 10
      ring_nf
      omega

theorem natOfDigits_pyDigits (n : Nat) : natOfDigits (pyDigits n) = n := by
  rw [natOfDigits, pyDigits]
  split
  · next h => subst h; rfl
  · next h =>
    have := foldl_step_pyDigitsAux n n 0 le_rfl
    simpa using this

theorem natOfDigits_pad3 (n : Nat) : natOfDigits (pad3 n) = n := by
  rw [natOfDigits, pad3, List.foldl_append]
  have hzeros : ∀ k, List.foldl (fun a c => a * 10 + (c.toNat - 48)) 0
      (List.replicate k '0') = 0 := by
    intro k
    induction k with
    | zero => rfl
    | succ k ihk => simpa [List.replicate_succ] using ihk
  rw [hzeros]
  exact natOfDigits_pyDigits n

theorem takeWhile_append_stop {p : α → Bool} {A B : List α}
    (hA : ∀ a ∈ A, p a = true) (hB : B.takeWhile p = []) :
    (A ++ B).takeWhile p = A := by
  rw [List.takeWhile_append_of_pos hA, hB, List.append_nil]

theorem slideFileName_eq (i : Nat) (part : Option Nat) :
    slideFileName i part = "slide_".data ++ pad3 i ++
      (match part with | none => ([] : List Char) | some j => '_' :: pyDigits j) ++
      ".html".data := rfl

theorem slideFileName_none_eq (i : Nat) :
    slideFileName i none = "slide_".data ++ (pad3 i ++ ".html".data) := by
  rw [slideFileName_eq]
  simp [List.append_assoc]

theorem slideFileName_some_eq (i j : Nat) :
    slideFileName i (some j)
      = "slide_".data ++ (pad3 i ++ ('_' :: (pyDigits j ++ ".html".data))) := by
  rw [slideFileName_eq]
  simp [List.append_assoc]

theorem matchSlideAt_name (i : Nat) :
    matchSlideAt (slideFileName i none) = some i := by
  have hname := slideFileName_none_eq i
  have hdrop : ("slide_".data ++ (pad3 i ++ ".html".data)).drop 6 = pad3 i ++ ".html".data := by
    have h6 : ("slide_".data).length = 6 := rfl
    rw [← h6, List.drop_left]
  have htw : (pad3 i ++ ".html".data).takeWhile isDig = pad3 i := by
    apply takeWhile_append_stop (pad3_mem_isDig i)
    rfl
  rw [matchSlideAt, hname]
  rw [if_pos (List.isPrefixOf_iff_prefix.2 (List.prefix_append _ _))]
  simp only [hdrop, htw]
  rw [if_neg (by simp [List.isEmpty_eq_true, pad3_ne_nil i])]
  rw [List.drop_left]
  simp [natOfDigits_pad3]

theorem searchSlideNum_name (i : Nat) :
    searchSlideNum (slideFileName i none) = some i := by
  have h := matchSlideAt_name i
  have hcons : ∃ rest, slideFileName i none = 's' :: rest := ⟨_, rfl⟩
  obtain ⟨rest, hr⟩ := hcons
  rw [hr] at h ⊢
  rw [searchSlideNum, h]

theorem globMatch_name (i : Nat) (part : Option Nat) :
    globMatch (slideFileName i part) = true := by
  have hp3 : 1 ≤ (pad3 i).length := by
    cases hp : pad3 i with
    | nil => exact absurd hp (pad3_ne_nil i)
    | cons a b => simp
  have h1 : ("slide_".data).isPrefixOf (slideFileName i part) = true := by
    apply List.isPrefixOf_iff_prefix.2
    rw [slideFileName_eq, List.append_assoc, List.append_assoc]
    exact List.prefix_append _ _
  have h2 : (".html".data).isSuffixOf (slideFileName i part) = true := by
    apply List.isSuffixOf_iff_suffix.2
    rw [slideFileName_eq]
    exact List.suffix_append _ _
  have h3 : 11 ≤ (slideFileName i part).length := by
    cases part with
    | none =>
      rw [slideFileName_none_eq]
      simp only [List.length_append]
      simp
      omega
    | some j =>
      rw [slideFileName_some_eq]
      simp only [List.length_append]
      simp
      omega
  simp [globMatch, h1, h2, h3]

theorem slideIdx_name (i : Nat) (part : Option Nat) :
    slideIdx (slideFileName i part) = i := by
  cases part with
  | none =>
    rw [slideIdx, slideFileName_none_eq]
    rw [List.drop_left' (show (("slide_".data)).length = 6 from rfl)]
    rw [takeWhile_append_stop (pad3_mem_isDig i)
      (show ((".html".data)).takeWhile isDig = [] from rfl)]
    exact natOfDigits_pad3 i
  | some j =>
    rw [slideIdx, slideFileName_some_eq]
    rw [List.drop_left' (show (("slide_".data)).length = 6 from rfl)]
    rw [takeWhile_append_stop (pad3_mem_isDig i)
      (show (('_' :: (pyDigits j ++ ".html".data))).takeWhile isDig = [] from rfl)]
    exact natOfDigits_pad3 i

theorem mapM_searchSlideNum (S : List Nat) :
    (S.map (fun i => slideFileName i none)).mapM searchSlideNum = some S := by
  induction S with
  | nil => rfl
  | cons a S ih =>
    simp only [List.map_cons, List.mapM_cons, searchSlideNum_name, ih]
    rfl

theorem foldl_max_range' (k : Nat) :
    (List.range' 1 k).foldl Nat.max 0 = k := by
  induction k with
  | zero => rfl
  | succ k ih =>
    rw [List.range'_concat, List.foldl_append, ih]
    simp only [List.foldl_cons, List.foldl_nil]
    have hmax : Nat.max k (1 + 1 * k) = 1 + 1 * k := by
      rw [Nat.max_eq_max]
      exact max_eq_right (by omega)
    rw [hmax]
    omega

theorem get_next_on_numbers (S : List Nat) (hS : S ≠ []) :
    get_next_slide_number (S.map (fun i => slideFileName i none))
      = some (S.foldl Nat.max 0 + 1) := by
  rw [get_next_slide_number]
  have hfil : (S.map (fun i => slideFileName i none)).filter globMatch
      = S.map (fun i => slideFileName i none) := by
    apply List.filter_eq_self.2
    intro a ha
    obtain ⟨i, _, rfl⟩ := List.mem_map.1 ha
    exact globMatch_name i none
  rw [hfil]
  rw [if_neg (by simp [List.isEmpty_eq_false, hS])]
  rw [mapM_searchSlideNum]
  rfl

theorem range'_one_ne_nil (k : Nat) (hk : 1 ≤ k) : List.range' 1 k ≠ [] := by
  intro h
  have hlen := List.length_range' 1 1 k
  rw [h] at hlen
  simp at hlen
  omega

theorem get_next_slidesUpTo (k : Nat) (hk : 1 ≤ k) :
    get_next_slide_number (slidesUpTo k) = some (k + 1) := by
  rw [slidesUpTo, get_next_on_numbers _ (range'_one_ne_nil k hk), foldl_max_range']


/-! ### Lemmas about the pipeline driver -/

theorem processPart_written (o : Oracle) (title topic : List Char) (i j : Nat) (multi : Bool)
    (st : DriverState) (part : List Char) :
    (processPart o title topic i j multi st part).written
      = st.written ++ [(slideFileName i (if multi then some j else none),
          insert_into_template title topic (pystrip part) [])] := by
  have hname : ("slide_".data ++ (pad3 i ++ (if multi then '_' :: pyDigits j else []))
      ++ ".html".data) = slideFileName i (if multi then some j else none) := by
    cases multi <;> simp [slideFileName_eq, List.append_assoc]
  cases h : run_prompt_through_anthropic (o.sumResp i j) 1 with
  | none =>
    simp only [processPart, h]
    rw [← hname]
  | some summary =>
    simp only [processPart, h]
    split
    · rw [← hname]
    · split
      · rw [← hname]
      · rw [← hname]

theorem processPart_step (o : Oracle) (title topic : List Char) (i j : Nat) (multi : Bool)
    (st : DriverState) (part : List Char) :
    ((processPart o title topic i j multi st part).stack = st.stack ∧
        (processPart o title topic i j multi st part).disk = st.disk) ∨
      ∃ sm, (processPart o title topic i j multi st part).stack = st.stack ++ [sm] ∧
        (processPart o title topic i j multi st part).disk
          = some (processPart o title topic i j multi st part).stack := by
  cases h : run_prompt_through_anthropic (o.sumResp i j) 1 with
  | none => left; constructor <;> simp [processPart, h]
  | some summary =>
    simp only [processPart, h]
    split
    · left; constructor <;> simp
    · split
      · left; constructor <;> simp
      · right; exact ⟨summary, by simp, by simp⟩

theorem stepOk_rfl (a : DriverState) : StepOk a a :=
  ⟨List.prefix_rfl, le_rfl, Or.inl ⟨rfl, rfl⟩⟩

theorem stepOk_trans {a b c : DriverState} (h1 : StepOk a b) (h2 : StepOk b c) :
    StepOk a c := by
  obtain ⟨p1, l1, d1⟩ := h1
  obtain ⟨p2, l2, d2⟩ := h2
  refine ⟨p1.trans p2, by omega, ?_⟩
  rcases d2 with ⟨hd, hs⟩ | hd
  · rcases d1 with ⟨hd', hs'⟩ | hd'
    · exact Or.inl ⟨hd.trans hd', hs.trans hs'⟩
    · right; rw [hd, hs]; exact hd'
  · exact Or.inr hd

theorem stepOk_processPart (o : Oracle) (title topic : List Char) (i j : Nat) (multi : Bool)
    (st : DriverState) (part : List Char) :
    StepOk st (processPart o title topic i j multi st part) := by
  have hw := processPart_written o title topic i j multi st part
  have hwlen : (processPart o title topic i j multi st part).written.length
      = st.written.length + 1 := by rw [hw]; simp
  rcases processPart_step o title topic i j multi st part with ⟨hs, hd⟩ | ⟨sm, hs, hd⟩
  · exact ⟨by rw [hs], by rw [hs]; omega, Or.inl ⟨hd, hs⟩⟩
  · refine ⟨by rw [hs]; exact List.prefix_append _ _, ?_, Or.inr hd⟩
    rw [hs]
    simp only [List.length_append, List.length_cons, List.length_nil]
    omega

theorem stepOk_partsLoop (o : Oracle) (title topic : List Char) (i : Nat) (multi : Bool) :
    ∀ ps j st, StepOk st (partsLoop o title topic i multi j ps st) := by
  intro ps
  induction ps with
  | nil => intro j st; exact stepOk_rfl st
  | cons p ps ih =>
    intro j st
    exact stepOk_trans (stepOk_processPart o title topic i j multi st p) (ih (j + 1) _)

theorem stepOk_processTopic (o : Oracle) (title : List Char) (i : Nat) (topic : List Char)
    (st : DriverState) : StepOk st (processTopic o title i topic st) := by
  cases h : run_prompt_through_anthropic (o.genResp i) 1 with
  | none => simp only [processTopic, h]; exact stepOk_rfl st
  | some r =>
    simp only [processTopic, h]
    split
    · exact stepOk_rfl st
    · split
      · exact stepOk_rfl st
      · exact stepOk_partsLoop o title topic i _ _ 1 st

theorem stepOk_runTopics (o : Oracle) (title : List Char) (tm : Bool) :
    ∀ ts i st, StepOk st (runTopics o title tm i ts st) := by
  intro ts
  induction ts with
  | nil => intro i st; exact stepOk_rfl st
  | cons t ts ih =>
    intro i st
    rw [runTopics]
    split
    · exact stepOk_rfl st
    · exact stepOk_trans (stepOk_processTopic o title i t st) (ih (i + 1) _)

theorem partsLoop_written_mem (o : Oracle) (title topic : List Char) (i : Nat) (multi : Bool) :
    ∀ ps j st e, e ∈ (partsLoop o title topic i multi j ps st).written →
      e ∈ st.written ∨ ∃ pt, e.1 = slideFileName i pt := by
  intro ps
  induction ps with
  | nil => intro j st e he; exact Or.inl he
  | cons p ps ih =>
    intro j st e he
    rcases ih (j + 1) _ e he with h | h
    · rw [processPart_written] at h
      rcases List.mem_append.1 h with h1 | h1
      · exact Or.inl h1
      · right
        rw [List.mem_singleton.1 h1]
        exact ⟨_, rfl⟩
    · exact Or.inr h

theorem processTopic_written_mem (o : Oracle) (title : List Char) (i : Nat)
    (topic : List Char) (st : DriverState) (e : List Char × List Char)
    (he : e ∈ (processTopic o title i topic st).written) :
    e ∈ st.written ∨ ∃ pt, e.1 = slideFileName i pt := by
  cases h : run_prompt_through_anthropic (o.genResp i) 1 with
  | none => simp only [processTopic, h] at he; exact Or.inl he
  | some r =>
    simp only [processTopic, h] at he
    split at he
    · exact Or.inl he
    · split at he
      · exact Or.inl he
      · exact partsLoop_written_mem o title topic i _ _ 1 st e he

theorem runTopics_written_mem (o : Oracle) (title : List Char) (tm : Bool) :
    ∀ ts i0 st e, e ∈ (runTopics o title tm i0 ts st).written →
      e ∈ st.written ∨ ∃ i pt, e.1 = slideFileName i pt ∧ i0 ≤ i := by
  intro ts
  induction ts with
  | nil => intro i0 st e he; exact Or.inl he
  | cons t ts ih =>
    intro i0 st e he
    rw [runTopics] at he
    split at he
    · exact Or.inl he
    · rcases ih (i0 + 1) _ e he with h | ⟨i, pt, hpt, hle⟩
      · rcases processTopic_written_mem o title i0 t st e h with h1 | ⟨pt, hpt⟩
        · exact Or.inl h1
        · exact Or.inr ⟨i0, pt, hpt, le_rfl⟩
      · exact Or.inr ⟨i, pt, hpt, by omega⟩

theorem runTopics_written_le5 (o : Oracle) (title : List Char) :
    ∀ ts i0 st e, e ∈ (runTopics o title true i0 ts st).written →
      e ∈ st.written ∨ ∃ i pt, e.1 = slideFileName i pt ∧ i ≤ 5 := by
  intro ts
  induction ts with
  | nil => intro i0 st e he; exact Or.inl he
  | cons t ts ih =>
    intro i0 st e he
    rw [runTopics] at he
    split at he
    · exact Or.inl he
    · next hguard =>
      have hle : i0 ≤ 5 := by
        by_contra hc
        exact hguard ⟨by simp, by omega⟩
      rcases ih (i0 + 1) _ e he with h | ⟨i, pt, hpt, hle'⟩
      · rcases processTopic_written_mem o title i0 t st e h with h1 | ⟨pt, hpt⟩
        · exact Or.inl h1
        · exact Or.inr ⟨i0, pt, hpt, hle⟩
      · exact Or.inr ⟨i, pt, hpt, hle'⟩

theorem processedIndices_mem_le (ts : List (List Char)) :
    ∀ i0, ∀ x ∈ processedIndices true i0 ts, x ≤ 5 := by
  induction ts with
  | nil => intro i0 x hx; simp [processedIndices] at hx
  | cons t ts ih =>
    intro i0 x hx
    rw [processedIndices] at hx
    split at hx
    · simp at hx
    · next hguard =>
      have hle : i0 ≤ 5 := by
        by_contra hc
        exact hguard ⟨by simp, by omega⟩
      rcases List.mem_cons.1 hx with rfl | hx'
      · exact hle
      · exact ih (i0 + 1) x hx'

theorem processedIndices_length (ts : List (List Char)) :
    ∀ i0, (processedIndices true i0 ts).length ≤ 6 - i0 := by
  induction ts with
  | nil => intro i0; simp [processedIndices]
  | cons t ts ih =>
    intro i0
    rw [processedIndices]
    split
    · simp
    · next hguard =>
      have hle : i0 ≤ 5 := by
        by_contra hc
        exact hguard ⟨by simp, by omega⟩
      have := ih (i0 + 1)
      simp only [List.length_cons]
      omega

theorem processedIndices_no_cap (ts : List (List Char)) :
    ∀ i0, processedIndices false i0 ts = List.range' i0 ts.length := by
  induction ts with
  | nil => intro i0; rfl
  | cons t ts ih =>
    intro i0
    rw [processedIndices, if_neg (by simp)]
    rw [ih (i0 + 1)]
    rw [List.length_cons, List.range'_succ]


/-! ### Lemmas about the outline parser -/

theorem findSome?_strip_eq_find? (ls : List (List Char)) :
    (ls.findSome? (fun l => let s := pystrip l; if s.isEmpty then none else some s))
      = (ls.find? (fun l => !l.all isWS)).map pystrip := by
  induction ls with
  | nil => rfl
  | cons l ls ih =>
    by_cases h : pystrip l = []
    · have hall : l.all isWS = true := by
        rw [List.all_eq_true]
        exact (pystrip_eq_nil_iff l).1 h
      rw [List.findSome?_cons, List.find?_cons]
      simp only [h, hall]
      simpa using ih
    · have hall : l.all isWS = false := by
        rcases hb : l.all isWS with _ | _
        · rfl
        · exact absurd ((pystrip_eq_nil_iff l).2 (List.all_eq_true.1 hb)) h
      rw [List.findSome?_cons, List.find?_cons]
      simp [h, hall, List.isEmpty_eq_true]

theorem fallbackTitle_eq_spec (content : List Char) :
    fallbackTitle content = specFallbackTitle content := by
  rw [fallbackTitle, specFallbackTitle, findSome?_strip_eq_find?]
  cases (splitOnSep ['\n'] content).find? (fun l => !l.all isWS) <;> rfl

theorem contentStartAux_none {ls : List (List Char)} (h : ∀ l ∈ ls, pystrip l ≠ []) :
    ∀ i, contentStartAux ls i = none := by
  induction ls with
  | nil => intro i; rfl
  | cons l ls ih =>
    intro i
    rw [contentStartAux,
      if_neg (by simpa [List.isEmpty_eq_true] using h l (List.mem_cons_self l ls))]
    exact ih (fun l' hl' => h l' (List.mem_cons_of_mem l hl')) (i + 1)

theorem parseCore_topics (content : List Char) :
    (parseCore content).2 = ((splitOnSep ['\n'] content).drop
      (contentStart (splitOnSep ['\n'] content))).filterMap lineTopic := rfl

theorem parseCore_title_of_none (content : List Char)
    (h : titleFromPatterns content = none) :
    (parseCore content).1 = fallbackTitle content := by
  simp [parseCore, h]

/-- Claim C6: the outline parser is total with graceful fallbacks: if no title
pattern matches, the title is the first non-blank line (then the fixed
placeholder); all-whitespace input yields the placeholder title and an empty
topic list; if no line yields a topic, the topic list is empty rather than an
error. -/
theorem C6_parser_robustness (text : List Char) :
    (titleFromPatterns (pystrip text) = none →
      (parse_config text).1 = specFallbackTitle (pystrip text))
    ∧ ((∀ c ∈ text, isWS c = true) → parse_config text = ("Untitled Course".data, []))
    ∧ ((∀ l ∈ (splitOnSep ['\n'] (pystrip text)).drop
          (contentStart (splitOnSep ['\n'] (pystrip text))), lineTopic l = none) →
        (parse_config text).2 = []) := by
  refine ⟨?_, ?_, ?_⟩
  · intro h
    rw [parse_config, parseCore_title_of_none _ h]
    exact fallbackTitle_eq_spec _
  · intro h
    have hnil : pystrip text = [] := (pystrip_eq_nil_iff text).2 h
    rw [parse_config, hnil]
    decide
  · intro h
    rw [parse_config, parseCore_topics]
    exact List.filterMap_eq_nil_iff.2 h

/-- Witness for C6 at the all-whitespace input `" "`, discharging all three
hypotheses. -/
theorem C6_parser_robustness_witness :
    (parse_config (" ".data)).1 = specFallbackTitle (pystrip (" ".data))
    ∧ parse_config (" ".data) = ("Untitled Course".data, [])
    ∧ (parse_config (" ".data)).2 = [] :=
  ⟨(C6_parser_robustness (" ".data)).1 (by decide),
   (C6_parser_robustness (" ".data)).2.1 (by decide),
   (C6_parser_robustness (" ".data)).2.2 (by decide)⟩

/-- Claim C7: parsing the outline `"Course Title: Intro\n\n1. History\n2.
Basics"` yields title `"Intro"` and topics `["History", "Basics"]` in order. -/
theorem C7_concrete_outline :
    parse_config ("Course Title: Intro\n\n1. History\n2. Basics".data)
      = ("Intro".data, ["History".data, "Basics".data]) := by decide

/-- Claim C9: when the outline has no blank line the header-skip start stays 0,
topic extraction scans from the very first line, and a title line such as
`"Course Title: Intro"` is itself returned as a topic. -/
theorem C9_no_blank_line (text : List Char)
    (h : ∀ l ∈ splitOnSep ['\n'] (pystrip text), pystrip l ≠ []) :
    contentStart (splitOnSep ['\n'] (pystrip text)) = 0
    ∧ (parse_config text).2 = (splitOnSep ['\n'] (pystrip text)).filterMap lineTopic
    ∧ parse_config ("Course Title: Intro\n1. History".data)
        = ("Intro".data, ["Course Title: Intro".data, "History".data]) := by
  have hcs : contentStart (splitOnSep ['\n'] (pystrip text)) = 0 := by
    rw [contentStart, contentStartAux_none h]
    rfl
  refine ⟨hcs, ?_, by decide⟩
  rw [parse_config, parseCore_topics, hcs, List.drop_zero]

/-- Witness for C9 at the blank-line-free outline `"abc"`. -/
theorem C9_no_blank_line_witness :
    contentStart (splitOnSep ['\n'] (pystrip ("abc".data))) = 0
    ∧ (parse_config ("abc".data)).2
        = (splitOnSep ['\n'] (pystrip ("abc".data))).filterMap lineTopic
    ∧ parse_config ("Course Title: Intro\n1. History".data)
        = ("Intro".data, ["Course Title: Intro".data, "History".data]) :=
  C9_no_blank_line ("abc".data) (by decide)


/-! ### Claims about the pipeline driver -/

theorem partsLoop_written_length (o : Oracle) (title topic : List Char) (i : Nat)
    (multi : Bool) :
    ∀ ps j st, (partsLoop o title topic i multi j ps st).written.length
      = st.written.length + ps.length := by
  intro ps
  induction ps with
  | nil => intro j st; rfl
  | cons p ps ih =>
    intro j st
    have h := ih (j + 1) (processPart o title topic i j multi st p)
    have hw := processPart_written o title topic i j multi st p
    have : (processPart o title topic i j multi st p).written.length
        = st.written.length + 1 := by rw [hw]; simp
    calc (partsLoop o title topic i multi (j + 1) ps
            (processPart o title topic i j multi st p)).written.length
        = (processPart o title topic i j multi st p).written.length + ps.length := h
      _ = st.written.length + (p :: ps).length := by rw [this]; simp; omega

/-- Claim C1: with slide files `1..k` present and a `k`-entry persisted stack,
a fresh run computes resume point `k + 1`, starts the topic loop exactly there
with the loaded stack, and every slide file written during the run has topic
index at least `k + 1` — no file of topics `1..k` is ever rewritten. -/
theorem C1_resumability (k : Nat) (hk : 1 ≤ k) (o : Oracle) (title : List Char)
    (topics : List (List Char)) (tm : Bool) (stack : List (List Char))
    (hstack : stack.length = k) :
    get_next_slide_number (slidesUpTo k) = some (k + 1)
    ∧ mainRun o title topics tm (slidesUpTo k) (some stack)
        = some (runTopics o title tm (k + 1) (topics.drop k) ⟨[], stack, some stack⟩)
    ∧ ∀ e ∈ (runTopics o title tm (k + 1) (topics.drop k)
        (⟨[], stack, some stack⟩ : DriverState)).written,
        (∃ i pt, e.1 = slideFileName i pt ∧ k + 1 ≤ i)
        ∧ ∀ m pt, m ≤ k → e.1 ≠ slideFileName m pt := by
  have h1 := get_next_slidesUpTo k hk
  refine ⟨h1, ?_, ?_⟩
  · simp only [mainRun, h1]
    simp
  · intro e he
    rcases runTopics_written_mem o title tm (topics.drop k) (k + 1)
        ⟨[], stack, some stack⟩ e he with hmem | ⟨i, pt, hpt, hge⟩
    · simp at hmem
    · refine ⟨⟨i, pt, hpt, hge⟩, ?_⟩
      intro m pt' hm heq
      have him : i = m := by
        have h' : slideFileName i pt = slideFileName m pt' := by rw [← hpt, heq]
        have h2 := congrArg slideIdx h'
        rwa [slideIdx_name, slideIdx_name] at h2
      omega

/-- Witness for C1 at `k = 2` with a concrete oracle, topics and stack. -/
theorem C1_resumability_witness :
    get_next_slide_number (slidesUpTo 2) = some 3
    ∧ mainRun oGen ("C".data) ["a".data, "b".data, "c".data] false (slidesUpTo 2)
        (some ["s1".data, "s2".data])
        = some (runTopics oGen ("C".data) false 3 (["a".data, "b".data, "c".data].drop 2)
            ⟨[], ["s1".data, "s2".data], some ["s1".data, "s2".data]⟩)
    ∧ ∀ e ∈ (runTopics oGen ("C".data) false 3 (["a".data, "b".data, "c".data].drop 2)
        (⟨[], ["s1".data, "s2".data], some ["s1".data, "s2".data]⟩ : DriverState)).written,
        (∃ i pt, e.1 = slideFileName i pt ∧ 3 ≤ i)
        ∧ ∀ m pt, m ≤ 2 → e.1 ≠ slideFileName m pt :=
  C1_resumability 2 (by decide) oGen ("C".data) ["a".data, "b".data, "c".data] false
    ["s1".data, "s2".data] (by decide)

/-- Claim C10: resume detection depends only on the slide file names, never on
the summaries file: with slides `1..k` the run starts at `k + 1` whatever the
persisted stack state is, and in particular with the summaries file absent it
starts at `k + 1` with an empty stack. -/
theorem C10_resume_ignores_stack_file (k : Nat) (hk : 1 ≤ k) (o : Oracle)
    (title : List Char) (topics : List (List Char)) (tm : Bool) :
    (∀ d, mainRun o title topics tm (slidesUpTo k) d
        = some (runTopics o title tm (k + 1) (topics.drop k) ⟨[], d.getD [], d⟩))
    ∧ mainRun o title topics tm (slidesUpTo k) none
        = some (runTopics o title tm (k + 1) (topics.drop k) ⟨[], [], none⟩) := by
  have h1 := get_next_slidesUpTo k hk
  have key : ∀ d, mainRun o title topics tm (slidesUpTo k) d
      = some (runTopics o title tm (k + 1) (topics.drop k) ⟨[], d.getD [], d⟩) := by
    intro d
    simp only [mainRun, h1]
    simp
  exact ⟨key, key none⟩

/-- Witness for C10 at `k = 1`. -/
theorem C10_resume_ignores_stack_file_witness :
    (∀ d, mainRun oGen ("C".data) ["a".data, "b".data] false (slidesUpTo 1) d
        = some (runTopics oGen ("C".data) false 2 (["a".data, "b".data].drop 1)
            ⟨[], d.getD [], d⟩))
    ∧ mainRun oGen ("C".data) ["a".data, "b".data] false (slidesUpTo 1) none
        = some (runTopics oGen ("C".data) false 2 (["a".data, "b".data].drop 1)
            ⟨[], [], none⟩) :=
  C10_resume_ignores_stack_file 1 (by decide) oGen ("C".data) ["a".data, "b".data] false

/-- Claim C3 counterexample: with slides 1, 2 and 4 present (topic 3 skipped by
an earlier run, topic 4 succeeded), the lowest index not represented is 3 but
the code resumes at 5, and a fully-succeeding resumed run writes only slide 5 —
topic 3 is never retried. -/
theorem C3_cex_skipped_topic_not_retried :
    specResumePoint filesGap = 3
    ∧ get_next_slide_number filesGap = some 5
    ∧ (mainRun oGen ("C".data) ["a".data, "b".data, "c".data, "d".data, "e".data] false
        filesGap none).map (fun st => st.written.map Prod.fst)
        = some [slideFileName 5 none] := by
  refine ⟨by decide, by decide, by decide⟩

/-- Claim C3 (amended): the resume point is the highest existing slide number
plus one, so a resumed run never writes a slide file with index at or below
that maximum; a skipped topic is retried only when no higher-numbered slide
file exists. -/
theorem C3_amended_resume_after_max (S : List Nat) (hS : S ≠ []) (o : Oracle)
    (title : List Char) (topics : List (List Char)) (tm : Bool) :
    get_next_slide_number (S.map (fun i => slideFileName i none))
      = some (S.foldl Nat.max 0 + 1)
    ∧ ∀ st, mainRun o title topics tm (S.map (fun i => slideFileName i none)) none
        = some st →
        ∀ e ∈ st.written, ∀ m pt, m ≤ S.foldl Nat.max 0 → e.1 ≠ slideFileName m pt := by
  have h1 := get_next_on_numbers S hS
  refine ⟨h1, ?_⟩
  intro st hst e he m pt hm heq
  simp only [mainRun, h1] at hst
  rcases Option.some.inj hst.symm with rfl
  rcases runTopics_written_mem o title tm _ _ _ e he with hmem | ⟨i, pt', hpt, hge⟩
  · simp at hmem
  · have him : i = m := by
      have h' : slideFileName i pt' = slideFileName m pt := by rw [← hpt, heq]
      have h2 := congrArg slideIdx h'
      rwa [slideIdx_name, slideIdx_name] at h2
    omega

/-- Witness for the amended C3 with slides 2 and 4 present. -/
theorem C3_amended_resume_after_max_witness :
    get_next_slide_number ([2, 4].map (fun i => slideFileName i none))
      = some ([2, 4].foldl Nat.max 0 + 1)
    ∧ ∀ st, mainRun oGen ("C".data) ["a".data] false
        ([2, 4].map (fun i => slideFileName i none)) none = some st →
        ∀ e ∈ st.written, ∀ m pt, m ≤ [2, 4].foldl Nat.max 0 →
          e.1 ≠ slideFileName m pt :=
  C3_amended_resume_after_max [2, 4] (by decide) oGen ("C".data) ["a".data] false

/-- Claim C2 counterexample: when the summary call for a written part fails,
the slide file exists but nothing is appended or persisted — at the end of the
run one slide file has been written while the persisted stack is absent (zero
entries): the on-disk stack is behind the slide files actually written. -/
theorem C2_cex_stack_behind_files :
    (runTopics oSumFail ("C".data) false 1 ["T".data] ⟨[], [], none⟩).written.length = 1
    ∧ (runTopics oSumFail ("C".data) false 1 ["T".data] ⟨[], [], none⟩).stack = []
    ∧ (runTopics oSumFail ("C".data) false 1 ["T".data] ⟨[], [], none⟩).disk = none := by
  refine ⟨by decide, by decide, by decide⟩

/-- Claim C2 (amended): every append persists the full stack immediately (at
the end of a run the summaries file is either untouched or holds exactly the
in-memory stack), the loaded stack is only appended to, and the stack gains at
most one entry per slide file written (it is never ahead of the files; it can
fall behind when a part's summary call fails or returns the sentinel). -/
theorem C2_amended_stack_invariants (o : Oracle) (title : List Char)
    (topics : List (List Char)) (tm : Bool) (start : Nat)
    (d0 : Option (List (List Char))) :
    (((runTopics o title tm start topics ⟨[], d0.getD [], d0⟩).disk = d0
        ∧ (runTopics o title tm start topics ⟨[], d0.getD [], d0⟩).stack = d0.getD [])
      ∨ (runTopics o title tm start topics ⟨[], d0.getD [], d0⟩).disk
          = some (runTopics o title tm start topics ⟨[], d0.getD [], d0⟩).stack)
    ∧ d0.getD [] <+: (runTopics o title tm start topics ⟨[], d0.getD [], d0⟩).stack
    ∧ (runTopics o title tm start topics ⟨[], d0.getD [], d0⟩).stack.length
        ≤ (d0.getD []).length
          + (runTopics o title tm start topics ⟨[], d0.getD [], d0⟩).written.length := by
  obtain ⟨hp, hl, hd⟩ := stepOk_runTopics o title tm topics start ⟨[], d0.getD [], d0⟩
  refine ⟨?_, hp, by simpa using hl⟩
  rcases hd with ⟨h1, h2⟩ | h1
  · exact Or.inl ⟨h1, h2⟩
  · exact Or.inr h1

/-- Claim C4: a successful generation response containing the split marker `m`
times makes the driver write exactly `m + 1` slide files for the topic, and the
`m + 1` slide parts, in order, are each trimmed and free of the marker. -/
theorem C4_split_correctness (o : Oracle) (title : List Char) (i : Nat)
    (topic : List Char) (st : DriverState) (raw resp : List Char) (m : Nat)
    (h1 : o.genResp i 0 = some raw) (h2 : pystrip raw = resp) (h3 : resp ≠ [])
    (h4 : resp ≠ TOPIC_SENT) (h5 : resp ≠ CONTENT_SENT)
    (h6 : countOcc SPLIT_MARKER resp = m) :
    (processTopic o title i topic st).written.length = st.written.length + (m + 1)
    ∧ (slideParts resp).length = m + 1
    ∧ ∀ p ∈ slideParts resp, pystrip p = p ∧ ¬ SPLIT_MARKER <:+: p := by
  have hmarker : SPLIT_MARKER ≠ [] := by decide
  have hrun : run_prompt_through_anthropic (o.genResp i) 1 = some resp := by
    simp only [run_prompt_through_anthropic, run_prompt_aux, h1, h2]
    rw [if_neg (not_or.2 ⟨h4, h5⟩)]
  refine ⟨?_, ?_, ?_⟩
  · simp only [processTopic, hrun]
    rw [if_neg (by simp [List.isEmpty_eq_true, h3]), if_neg h4]
    rw [partsLoop_written_length, splitOnSep_length hmarker, h6]
  · rw [slideParts, List.length_map, splitOnSep_length hmarker, h6]
  · intro p hp
    obtain ⟨q, hq, rfl⟩ := List.mem_map.1 hp
    refine ⟨pystrip_idem q, ?_⟩
    intro hcon
    exact splitOnSep_no_infix hmarker q hq (hcon.trans (pystrip_isInfix q))

/-- Witness for C4 on a two-part response (one marker occurrence). -/
theorem C4_split_correctness_witness :
    (processTopic oSplit2 ("C".data) 1 ("T".data) ⟨[], [], none⟩).written.length
      = 0 + (1 + 1)
    ∧ (slideParts ("<h2>A</h2><!--SPLIT_SLIDE_HERE--><h2>B</h2>".data)).length = 1 + 1
    ∧ ∀ p ∈ slideParts ("<h2>A</h2><!--SPLIT_SLIDE_HERE--><h2>B</h2>".data),
        pystrip p = p ∧ ¬ SPLIT_MARKER <:+: p :=
  C4_split_correctness oSplit2 ("C".data) 1 ("T".data) ⟨[], [], none⟩ _ _ 1 rfl
    (by decide) (by decide) (by decide) (by decide) (by decide)

/-- Claim C5: when the single (hence final) retry of the generation call
returns the ambiguity sentinel, the topic's step leaves the state unchanged —
zero slide files are written for it — and the loop continues with the next
topic rather than aborting. -/
theorem C5_sentinel_skips_topic (o : Oracle) (title : List Char) (tm : Bool) (i : Nat)
    (topic : List Char) (ts : List (List Char)) (st : DriverState) (raw : List Char)
    (h1 : o.genResp i 0 = some raw) (h2 : pystrip raw = TOPIC_SENT)
    (h3 : tm = true → i ≤ 5) :
    processTopic o title i topic st = st
    ∧ runTopics o title tm i (topic :: ts) st = runTopics o title tm (i + 1) ts st := by
  have hrun : run_prompt_through_anthropic (o.genResp i) 1 = none := by
    simp [run_prompt_through_anthropic, run_prompt_aux, h1, h2]
  have hpt : processTopic o title i topic st = st := by
    simp only [processTopic, hrun]
  refine ⟨hpt, ?_⟩
  rw [runTopics,
    if_neg (by rintro ⟨htm, hgt⟩; have := h3 htm; omega), hpt]

/-- Witness for C5: the sentinel response (with surrounding whitespace) at
topic 1 leaves the initial state unchanged and moves on to index 2. -/
theorem C5_sentinel_skips_topic_witness :
    processTopic oSent ("C".data) 1 ("T".data) ⟨[], [], none⟩ = ⟨[], [], none⟩
    ∧ runTopics oSent ("C".data) false 1 (("T".data) :: []) ⟨[], [], none⟩
        = runTopics oSent ("C".data) false 2 [] ⟨[], [], none⟩ :=
  C5_sentinel_skips_topic oSent ("C".data) false 1 ("T".data) [] ⟨[], [], none⟩ _ rfl
    (by decide) (by decide)

/-- Claim C8 (amended): the test-mode cap bounds one run to topics with
absolute index at most 5 (hence at most 5 topics); it truncates only the loop —
without the cap the loop visits every remaining index, and the parsed topic
list is not touched; a resumed test-mode run therefore processes only what is
left below index 6, not a fresh cap's worth from its resume point. -/
theorem C8_amended_test_mode_cap (o : Oracle) (title : List Char) (st : DriverState)
    (ts : List (List Char)) (start : Nat) (h1 : 1 ≤ start) :
    (processedIndices true start ts).length ≤ 5
    ∧ (∀ x ∈ processedIndices true start ts, x ≤ 5)
    ∧ processedIndices false start ts = List.range' start ts.length
    ∧ ∀ e ∈ (runTopics o title true start ts st).written,
        e ∈ st.written ∨ ∃ i pt, e.1 = slideFileName i pt ∧ i ≤ 5 := by
  refine ⟨?_, processedIndices_mem_le ts start, processedIndices_no_cap ts start,
    fun e he => runTopics_written_le5 o title ts start st e he⟩
  have := processedIndices_length ts start
  omega

/-- Witness for the amended C8 at start index 1. -/
theorem C8_amended_test_mode_cap_witness :
    (processedIndices true 1 ["T".data]).length ≤ 5
    ∧ (∀ x ∈ processedIndices true 1 ["T".data], x ≤ 5)
    ∧ processedIndices false 1 ["T".data] = List.range' 1 (["T".data]).length
    ∧ ∀ e ∈ (runTopics oGen ("C".data) true 1 ["T".data]
        (⟨[], [], none⟩ : DriverState)).written,
        e ∈ (⟨[], [], none⟩ : DriverState).written
          ∨ ∃ i pt, e.1 = slideFileName i pt ∧ i ≤ 5 :=
  C8_amended_test_mode_cap oGen ("C".data) ⟨[], [], none⟩ ["T".data] 1 (by decide)

/-- Claim C8 counterexample: a resumed test-mode run at index 6 with a topic
remaining processes nothing (the state is unchanged), while the same run
without the cap writes that topic's slide — the cap is on the absolute topic
index, not on the number of topics processed in the run. -/
theorem C8_cex_resumed_test_mode :
    runTopics oGen ("C".data) true 6 ["T".data] ⟨[], [], none⟩ = ⟨[], [], none⟩
    ∧ (runTopics oGen ("C".data) false 6 ["T".data] ⟨[], [], none⟩).written.length
        = 1 := by
  refine ⟨by decide, by decide⟩

end Slidegen

-- sanity checks (concrete evaluations of the parser)
example :
    Slidegen.parse_config ("Course Title: Intro\n\n1. History\n2. Basics".data)
      = ("Intro".data, ["History".data, "Basics".data]) := by decide

example :
    Slidegen.parse_config ("Course Title: Intro\n1. History".data)
      = ("Intro".data, ["Course Title: Intro".data, "History".data]) := by decide

example : Slidegen.parse_config ("   ".data) = ("Untitled Course".data, []) := by decide

example :
    Slidegen.parse_config ("== Hello ==\n\n- alpha\n(B) beta\nNotes: x".data)
      = ("Hello".data, ["alpha".data, "beta".data]) := by decide
